import Mathlib

/-!
Shallow embedding of the sharing / note-listing / draft-persistence core of
`src/app/(tabs)/index.tsx` (MoofToDo).  Ids are the uuid strings of the
Supabase tables; machine-level details that the claims do not touch
(timestamps used only for `order by created_at`, profile display fields)
are omitted, as list membership and multiplicity are invariant under the
reordering they drive.
-/

namespace MoofToDo

/-- `permission ∈ {view, edit}` as used by both collaborator tables. -/
inductive Perm where
  | view
  | edit
deriving DecidableEq, Repr

/-- A row of `note_folders` (fields the engine reads: `id`, owner `user_id`, `name`). -/
structure Folder where
  id : String
  user_id : String
  name : String
deriving DecidableEq, Repr

/-- A row of `notes`.  `folder_id` is nullable; `owner_id` / `user_id` are the
two owner columns the source queries with `.or(owner_id.eq.X,user_id.eq.X)`. -/
structure Note where
  id : String
  folder_id : Option String
  title : String
  content : Option String
  color : Option String
  owner_id : Option String
  user_id : Option String
deriving DecidableEq, Repr

/-- A row of `folder_collaborators`. -/
structure FolderCollaborator where
  folder_id : String
  user_id : String
  permission : Perm
  invited_by : String
deriving DecidableEq, Repr

/-- A row of `note_collaborators`. -/
structure NoteCollaborator where
  note_id : String
  user_id : String
  permission : Perm
  invited_by : String
deriving DecidableEq, Repr

/-- The Durable Relational Store: the four collections the sharing engine touches. -/
structure Store where
  folders : List Folder
  notes : List Note
  folderCollaborators : List FolderCollaborator
  noteCollaborators : List NoteCollaborator
deriving DecidableEq, Repr

/-- JavaScript `String.prototype.trim` (strip leading and trailing
whitespace), written over the character list so that the kernel can
evaluate it on concrete strings. -/
def jsTrim (s : String) : String :=
  String.mk (((s.data.dropWhile Char.isWhitespace).reverse.dropWhile
    Char.isWhitespace).reverse)

/-- `true` when two `note_collaborators` rows collide on the `(note_id, user_id)` pair. -/
def collabClash (a b : NoteCollaborator) : Bool :=
  a.note_id == b.note_id && a.user_id == b.user_id

/-- A fresh row conflicts with a table when some existing row holds the same
`(note_id, user_id)` pair. -/
def conflictsWith (tbl : List NoteCollaborator) (r : NoteCollaborator) : Bool :=
  tbl.any (fun t => collabClash t r)

/-- Whether a batch insert into `note_collaborators` succeeds: every row must be
free of conflicts with the table as extended by the rows before it. -/
def batchOk (tbl : List NoteCollaborator) : List NoteCollaborator → Bool
  | [] => true
  | r :: rest => !conflictsWith tbl r && batchOk (tbl ++ [r]) rest

/-- Modelled from the spec: the store schema is not under `src/`; per §3 the
`note_collaborators` table has a unique `(note_id, user_id)` pair, so a
multi-row `insert` (one SQL statement) is atomic — if any row violates the
constraint the whole statement fails and nothing is inserted.  The source
never reads the error of this insert. -/
def insertNoteCollaborators (tbl rows : List NoteCollaborator) : List NoteCollaborator :=
  if batchOk tbl rows then tbl ++ rows else tbl

/-- Outcome of `shareFolderWithUser`, mirroring the `setAlertMessage` branches of
the source (`error` / `warning` / `info` / `success`). -/
inductive ShareResult where
  | notLoggedIn
  | selfShare
  | alreadyShared
  | insertFailed (msg : String)
  | success (notesAlsoShared : Nat)
deriving DecidableEq, Repr

/-- `shareFolderWithUser(folderId, userId, permission)` with the session user
made explicit.  Steps of the source, in order: not-logged-in guard;
self-share guard; `maybeSingle` duplicate probe on `folder_collaborators`
(its row is truthy exactly when the pair count is 1 — with ≥ 2 rows
`maybeSingle` errors and yields no row, and the source ignores `checkError`);
insert of the `folder_collaborators` row (modelled from the spec: unique
`(folder_id, user_id)` pair, so it fails exactly when the pair already
exists); fetch of the folder's notes; batch insert of one
`note_collaborators` row per note, error unread.  No folder-ownership check
appears anywhere in the source function. -/
def shareFolderWithUser (s : Store) (sessionUserId : Option String)
    (folderId userId : String) (permission : Perm) : ShareResult × Store :=
  match sessionUserId with
  | none => (.notLoggedIn, s)
  | some me =>
    if userId = me then (.selfShare, s)
    else
      let pairRows := s.folderCollaborators.filter
        (fun c => c.folder_id == folderId && c.user_id == userId)
      if pairRows.length = 1 then (.alreadyShared, s)
      else if s.folderCollaborators.any
          (fun c => c.folder_id == folderId && c.user_id == userId) then
        (.insertFailed "duplicate folder collaborator", s)
      else
        let s1 : Store := { s with
          folderCollaborators :=
            s.folderCollaborators ++ [⟨folderId, userId, permission, me⟩] }
        let notesInFolder := s.notes.filter (fun n => n.folder_id == some folderId)
        let s2 : Store :=
          if notesInFolder.isEmpty then s1
          else { s1 with
            noteCollaborators := insertNoteCollaborators s1.noteCollaborators
              (notesInFolder.map (fun n => NoteCollaborator.mk n.id userId permission me)) }
        (.success notesInFolder.length, s2)

/-- Concrete store: folder `f1` owned by `alice`; nobody has shared anything yet. -/
def cs1 : Store :=
  { folders := [⟨"f1", "alice", "Work"⟩]
    notes := []
    folderCollaborators := []
    noteCollaborators := [] }

lemma pairFilter_eq_nil {l : List FolderCollaborator} {folderId target : String}
    (h : ∀ c ∈ l, ¬(c.folder_id = folderId ∧ c.user_id = target)) :
    l.filter (fun c => c.folder_id == folderId && c.user_id == target) = [] := by
  rw [List.filter_eq_nil_iff]
  intro c hc
  simp only [Bool.and_eq_true, beq_iff_eq, not_and]
  intro h1 h2
  exact h c hc ⟨h1, h2⟩

lemma pairAny_eq_false {l : List FolderCollaborator} {folderId target : String}
    (h : ∀ c ∈ l, ¬(c.folder_id = folderId ∧ c.user_id = target)) :
    l.any (fun c => c.folder_id == folderId && c.user_id == target) = false := by
  rw [List.any_eq_false]
  intro c hc
  simp only [Bool.and_eq_true, beq_iff_eq, not_and]
  intro h1 h2
  exact h c hc ⟨h1, h2⟩

/-- On the happy path (logged in, not self, pair absent) `shareFolderWithUser`
reports success and the store gains the folder-collaborator row; the
note-collaborator table is the batch insert of one row per folder note. -/
lemma shareFolder_happy (s : Store) (me folderId target : String) (perm : Perm)
    (hself : target ≠ me)
    (hnew : ∀ c ∈ s.folderCollaborators, ¬(c.folder_id = folderId ∧ c.user_id = target)) :
    shareFolderWithUser s (some me) folderId target perm =
      (ShareResult.success (s.notes.filter (fun n => n.folder_id == some folderId)).length,
        { s with
          folderCollaborators := s.folderCollaborators ++ [⟨folderId, target, perm, me⟩]
          noteCollaborators :=
            if (s.notes.filter (fun n => n.folder_id == some folderId)).isEmpty then
              s.noteCollaborators
            else
              insertNoteCollaborators s.noteCollaborators
                ((s.notes.filter (fun n => n.folder_id == some folderId)).map
                  (fun n => NoteCollaborator.mk n.id target perm me)) }) := by
  simp only [shareFolderWithUser]
  rw [if_neg hself, pairFilter_eq_nil hnew, pairAny_eq_false hnew]
  simp
  split <;> rfl

/-- When exactly one FolderCollaborator row already exists for the pair, the
`maybeSingle` probe sees it and the call reports the duplicate without
writing. -/
lemma shareFolder_dup (s : Store) (me folderId target : String) (perm : Perm)
    (hself : target ≠ me)
    (hone : (s.folderCollaborators.filter
      (fun c => c.folder_id == folderId && c.user_id == target)).length = 1) :
    shareFolderWithUser s (some me) folderId target perm = (ShareResult.alreadyShared, s) := by
  simp only [shareFolderWithUser]
  rw [if_neg hself, if_pos hone]

/-- C1: the claim as stated is false on the code: `bob` is not the owner of
folder `f1` (owned by `alice`), yet `shareFolderWithUser` run with `bob`'s
session succeeds and inserts the FolderCollaborator row for `carol`. -/
theorem shareFolder_nonowner_counterexample :
    cs1.folders = [⟨"f1", "alice", "Work"⟩] ∧
    ("bob" : String) ≠ "alice" ∧
    (shareFolderWithUser cs1 (some "bob") "f1" "carol" Perm.edit).1 =
      ShareResult.success 0 ∧
    FolderCollaborator.mk "f1" "carol" Perm.edit "bob" ∈
      (shareFolderWithUser cs1 (some "bob") "f1" "carol" Perm.edit).2.folderCollaborators := by
  decide

/-- C1 (amended): `shareFolderWithUser` performs no folder-ownership check:
whenever the granter is logged in, is not the target, and no
FolderCollaborator row exists for the pair, the call succeeds and inserts the
row — even when the folder in the store belongs to a different user. -/
theorem shareFolder_no_ownership_check
    (s : Store) (me folderId target : String) (perm : Perm) (fl : Folder)
    (hfl : fl ∈ s.folders) (hid : fl.id = folderId) (hown : fl.user_id ≠ me)
    (hself : target ≠ me)
    (hnew : ∀ c ∈ s.folderCollaborators, ¬(c.folder_id = folderId ∧ c.user_id = target)) :
    (shareFolderWithUser s (some me) folderId target perm).1 =
      ShareResult.success (s.notes.filter (fun n => n.folder_id == some folderId)).length ∧
    FolderCollaborator.mk folderId target perm me ∈
      (shareFolderWithUser s (some me) folderId target perm).2.folderCollaborators := by
  rw [shareFolder_happy s me folderId target perm hself hnew]
  exact ⟨rfl, by simp⟩

/-- C1 (amended) at a concrete input: `bob` does not own `alice`'s folder and
the share still goes through. -/
theorem shareFolder_no_ownership_check_witness :
    (Folder.mk "f1" "alice" "Work" ∈ cs1.folders ∧ ("alice" : String) ≠ "bob" ∧
      ("carol" : String) ≠ "bob") ∧
    ((shareFolderWithUser cs1 (some "bob") "f1" "carol" Perm.edit).1 =
      ShareResult.success (cs1.notes.filter (fun n => n.folder_id == some "f1")).length ∧
    FolderCollaborator.mk "f1" "carol" Perm.edit "bob" ∈
      (shareFolderWithUser cs1 (some "bob") "f1" "carol" Perm.edit).2.folderCollaborators) :=
  ⟨⟨by decide, by decide, by decide⟩,
    shareFolder_no_ownership_check cs1 "bob" "f1" "carol" Perm.edit
      ⟨"f1", "alice", "Work"⟩ (by decide) rfl (by decide) (by decide)
      (by intro c hc; simp [cs1] at hc)⟩

/-- C3: sharing the same folder with the same user twice is idempotent: after
both calls exactly one FolderCollaborator row exists for the pair, and the
second call reports the duplicate informationally and writes nothing. -/
theorem shareFolder_idempotent
    (s : Store) (me folderId target : String) (perm : Perm)
    (hself : target ≠ me)
    (hnew : ∀ c ∈ s.folderCollaborators, ¬(c.folder_id = folderId ∧ c.user_id = target)) :
    ((shareFolderWithUser (shareFolderWithUser s (some me) folderId target perm).2
        (some me) folderId target perm).2.folderCollaborators.filter
          (fun c => c.folder_id == folderId && c.user_id == target)).length = 1 ∧
    (shareFolderWithUser (shareFolderWithUser s (some me) folderId target perm).2
        (some me) folderId target perm).1 = ShareResult.alreadyShared ∧
    (shareFolderWithUser (shareFolderWithUser s (some me) folderId target perm).2
        (some me) folderId target perm).2 =
      (shareFolderWithUser s (some me) folderId target perm).2 := by
  have hfc : (shareFolderWithUser s (some me) folderId target perm).2.folderCollaborators =
      s.folderCollaborators ++ [FolderCollaborator.mk folderId target perm me] := by
    rw [shareFolder_happy s me folderId target perm hself hnew]
  have hfilter : (shareFolderWithUser s (some me) folderId target
      perm).2.folderCollaborators.filter
        (fun c => c.folder_id == folderId && c.user_id == target) =
      [FolderCollaborator.mk folderId target perm me] := by
    rw [hfc, List.filter_append, pairFilter_eq_nil hnew]
    simp
  have h2 := shareFolder_dup (shareFolderWithUser s (some me) folderId target perm).2
      me folderId target perm hself (by rw [hfilter]; rfl)
  rw [h2]
  exact ⟨by rw [hfilter]; rfl, rfl, rfl⟩

/-- C3 at a concrete input. -/
theorem shareFolder_idempotent_witness :
    (("carol" : String) ≠ "alice") ∧
    (((shareFolderWithUser (shareFolderWithUser cs1 (some "alice") "f1" "carol" Perm.edit).2
        (some "alice") "f1" "carol" Perm.edit).2.folderCollaborators.filter
          (fun c => c.folder_id == "f1" && c.user_id == "carol")).length = 1 ∧
    (shareFolderWithUser (shareFolderWithUser cs1 (some "alice") "f1" "carol" Perm.edit).2
        (some "alice") "f1" "carol" Perm.edit).1 = ShareResult.alreadyShared ∧
    (shareFolderWithUser (shareFolderWithUser cs1 (some "alice") "f1" "carol" Perm.edit).2
        (some "alice") "f1" "carol" Perm.edit).2 =
      (shareFolderWithUser cs1 (some "alice") "f1" "carol" Perm.edit).2) :=
  ⟨by decide,
    shareFolder_idempotent cs1 "alice" "f1" "carol" Perm.edit (by decide)
      (by intro c hc; simp [cs1] at hc)⟩

lemma conflictsWith_append (t1 t2 : List NoteCollaborator) (r : NoteCollaborator) :
    conflictsWith (t1 ++ t2) r = (conflictsWith t1 r || conflictsWith t2 r) := by
  simp [conflictsWith, List.any_append]

lemma batchOk_false_of_conflict {tbl rows : List NoteCollaborator} {r : NoteCollaborator}
    (hr : r ∈ rows) (hc : conflictsWith tbl r = true) :
    batchOk tbl rows = false := by
  induction rows generalizing tbl with
  | nil => cases hr
  | cons a rest ih =>
    rcases List.mem_cons.mp hr with h | h
    · subst h
      simp [batchOk, hc]
    · by_cases hca : conflictsWith tbl a = true
      · simp [batchOk, hca]
      · have : conflictsWith (tbl ++ [a]) r = true := by
          rw [conflictsWith_append, hc]
          rfl
        simp [batchOk, ih h this]

lemma batchOk_of_no_conflict {tbl rows : List NoteCollaborator}
    (h1 : ∀ r ∈ rows, conflictsWith tbl r = false)
    (h2 : rows.Pairwise (fun a b => collabClash a b = false)) :
    batchOk tbl rows = true := by
  induction rows generalizing tbl with
  | nil => rfl
  | cons a rest ih =>
    rw [List.pairwise_cons] at h2
    have ha : conflictsWith tbl a = false := h1 a (List.mem_cons_self a rest)
    have hrest : ∀ r ∈ rest, conflictsWith (tbl ++ [a]) r = false := by
      intro r hr
      rw [conflictsWith_append, h1 r (List.mem_cons_of_mem a hr)]
      simp [conflictsWith, h2.1 r hr]
    simp [batchOk, ha, ih hrest h2.2]

/-- Concrete store for the materialization claim: `alice`'s folder `f1` holds
notes `n1` and `n2`; `bob` already has a direct NoteCollaborator row on `n1`. -/
def cs2 : Store :=
  { folders := [⟨"f1", "alice", "Work"⟩]
    notes :=
      [ ⟨"n1", some "f1", "Plan", some "v1", none, some "alice", some "alice"⟩
      , ⟨"n2", some "f1", "Roadmap", none, none, some "alice", some "alice"⟩ ]
    folderCollaborators := []
    noteCollaborators := [⟨"n1", "bob", Perm.view, "alice"⟩] }

/-- C2: the claim as stated is false on the code: sharing `f1` with `bob`
succeeds, but because the source inserts a row for *every* note in the folder
in one batch — with no skipping of notes `bob` already collaborates on — the
whole `note_collaborators` insert fails on `n1`'s existing row and `n2`, which
has no row, gains none (the claim demands exactly one row for `n2`). -/
theorem shareFolder_materialization_counterexample :
    (shareFolderWithUser cs2 (some "alice") "f1" "bob" Perm.edit).1 =
      ShareResult.success 2 ∧
    (shareFolderWithUser cs2 (some "alice") "f1" "bob" Perm.edit).2.noteCollaborators =
      cs2.noteCollaborators ∧
    ((shareFolderWithUser cs2 (some "alice") "f1" "bob" Perm.edit).2.noteCollaborators.filter
      (fun c => c.note_id == "n2" && c.user_id == "bob")).length = 0 := by
  decide

/-- C2 (amended): the materialization performs no per-note skipping: it batch
inserts one row per note currently in the folder; if any of those notes
already has a NoteCollaborator row for the target user, the whole batch fails
silently and no NoteCollaborator row at all is inserted; only when no note in
the folder has such a row does every note gain exactly one row with the same
permission. -/
theorem shareFolder_materialization_no_skip
    (s : Store) (me folderId target : String) (perm : Perm)
    (hself : target ≠ me)
    (hnew : ∀ c ∈ s.folderCollaborators, ¬(c.folder_id = folderId ∧ c.user_id = target))
    (hids : ((s.notes.filter (fun n => n.folder_id == some folderId)).map Note.id).Nodup) :
    (shareFolderWithUser s (some me) folderId target perm).2.noteCollaborators =
      if ∃ n ∈ s.notes, n.folder_id = some folderId ∧
          ∃ c ∈ s.noteCollaborators, c.note_id = n.id ∧ c.user_id = target
      then s.noteCollaborators
      else s.noteCollaborators ++
        (s.notes.filter (fun n => n.folder_id == some folderId)).map
          (fun n => NoteCollaborator.mk n.id target perm me) := by
  have hmain : (shareFolderWithUser s (some me) folderId target perm).2.noteCollaborators =
      if (s.notes.filter (fun n => n.folder_id == some folderId)).isEmpty then
        s.noteCollaborators
      else
        insertNoteCollaborators s.noteCollaborators
          ((s.notes.filter (fun n => n.folder_id == some folderId)).map
            (fun n => NoteCollaborator.mk n.id target perm me)) := by
    rw [shareFolder_happy s me folderId target perm hself hnew]
  rw [hmain]
  by_cases hex : ∃ n ∈ s.notes, n.folder_id = some folderId ∧
      ∃ c ∈ s.noteCollaborators, c.note_id = n.id ∧ c.user_id = target
  · rw [if_pos hex]
    obtain ⟨n, hn, hnf, c, hc, hcn, hcu⟩ := hex
    have hmem : n ∈ s.notes.filter (fun n => n.folder_id == some folderId) :=
      List.mem_filter.mpr ⟨hn, by simp [hnf]⟩
    have hne : ¬(s.notes.filter (fun n => n.folder_id == some folderId)).isEmpty = true := by
      rw [List.isEmpty_iff]
      intro h
      rw [h] at hmem
      cases hmem
    rw [if_neg hne]
    have hconf : conflictsWith s.noteCollaborators
        (NoteCollaborator.mk n.id target perm me) = true := by
      rw [conflictsWith, List.any_eq_true]
      exact ⟨c, hc, by simp [collabClash, hcn, hcu]⟩
    have hrow : NoteCollaborator.mk n.id target perm me ∈
        (s.notes.filter (fun n => n.folder_id == some folderId)).map
          (fun n => NoteCollaborator.mk n.id target perm me) :=
      List.mem_map.mpr ⟨n, hmem, rfl⟩
    have hbatch := batchOk_false_of_conflict hrow hconf
    simp [insertNoteCollaborators, hbatch]
  · rw [if_neg hex]
    by_cases hemp : (s.notes.filter (fun n => n.folder_id == some folderId)).isEmpty = true
    · rw [if_pos hemp]
      rw [List.isEmpty_iff] at hemp
      rw [hemp]
      simp
    · rw [if_neg hemp]
      have hbatch : batchOk s.noteCollaborators
          ((s.notes.filter (fun n => n.folder_id == some folderId)).map
            (fun n => NoteCollaborator.mk n.id target perm me)) = true := by
        apply batchOk_of_no_conflict
        · intro r hr
          obtain ⟨n, hn, rfl⟩ := List.mem_map.mp hr
          rw [List.mem_filter] at hn
          rw [conflictsWith, List.any_eq_false]
          intro c hc
          simp only [collabClash, Bool.and_eq_true, beq_iff_eq, not_and]
          intro h1 h2
          exact hex ⟨n, hn.1, by simpa using hn.2, c, hc, h1, h2⟩
        · rw [List.pairwise_map]
          have hp : (s.notes.filter (fun n => n.folder_id == some folderId)).Pairwise
              (fun a b => a.id ≠ b.id) := by
            have h := hids
            rw [List.Nodup, List.pairwise_map] at h
            exact h
          exact hp.imp (fun h => by simp [collabClash, h])
      simp [insertNoteCollaborators, hbatch]

/-- C2 (amended) at a concrete input: `cs2` is exactly the conflicting case, so
the note-collaborator table is unchanged by the share. -/
theorem shareFolder_materialization_no_skip_witness :
    ((("bob" : String) ≠ "alice") ∧
      ((cs2.notes.filter (fun n => n.folder_id == some "f1")).map Note.id).Nodup) ∧
    (shareFolderWithUser cs2 (some "alice") "f1" "bob" Perm.edit).2.noteCollaborators =
      (if ∃ n ∈ cs2.notes, n.folder_id = some "f1" ∧
          ∃ c ∈ cs2.noteCollaborators, c.note_id = n.id ∧ c.user_id = "bob"
      then cs2.noteCollaborators
      else cs2.noteCollaborators ++
        (cs2.notes.filter (fun n => n.folder_id == some "f1")).map
          (fun n => NoteCollaborator.mk n.id "bob" Perm.edit "alice")) :=
  ⟨⟨by decide, by decide⟩,
    shareFolder_materialization_no_skip cs2 "alice" "f1" "bob" Perm.edit (by decide)
      (by intro c hc; simp [cs2] at hc) (by decide)⟩

/-- Outcome branches of the source `addNote`. -/
inductive AddNoteResult where
  | emptyTitle
  | added (noteId : String)
deriving DecidableEq, Repr

/-- `addNote()` with its React state made explicit: `me` is `session.user.id`
(the claims run with a signed-in session), `selectedFolderId` the folder
picker state, and `newId` the uuid the store generates for the inserted row
(fresh, so the row insert itself succeeds).  Steps of the source: blank-title
guard (`!noteTitle.trim()`); `targetFolder = selectedFolderId || null`; insert
of the note row; if the target folder is set, fetch of its
`folder_collaborators` and — when non-empty — one batch insert of a
`note_collaborators` row per collaborator carrying that collaborator's
permission, error unread. -/
def addNote (s : Store) (me : String) (selectedFolderId : Option String)
    (noteTitle noteBody : String) (noteColor : Option String) (newId : String) :
    AddNoteResult × Store :=
  let targetFolder : Option String :=
    match selectedFolderId with
    | none => none
    | some fid => if fid = "" then none else some fid
  if jsTrim noteTitle = "" then (.emptyTitle, s)
  else
    let newNote : Note :=
      { id := newId, folder_id := targetFolder, title := jsTrim noteTitle,
        content := if jsTrim noteBody = "" then none else some (jsTrim noteBody),
        color := noteColor, owner_id := some me, user_id := some me }
    let s1 : Store := { s with notes := s.notes ++ [newNote] }
    match targetFolder with
    | none => (.added newId, s1)
    | some f =>
      let folderCollabs := s.folderCollaborators.filter (fun c => c.folder_id == f)
      let s2 : Store :=
        if folderCollabs.isEmpty then s1
        else { s1 with
          noteCollaborators := insertNoteCollaborators s1.noteCollaborators
            (folderCollabs.map (fun c =>
              NoteCollaborator.mk newId c.user_id c.permission me)) }
      (.added newId, s2)

/-- On the happy path (non-blank title, non-empty target folder id) `addNote`
appends the note row and batch inserts the materialized collaborator rows. -/
lemma addNote_happy (s : Store) (me f : String) (title body : String)
    (color : Option String) (newId : String)
    (htitle : ¬jsTrim title = "") (hf : f ≠ "") :
    addNote s me (some f) title body color newId =
      (AddNoteResult.added newId,
        let newNote : Note :=
          { id := newId, folder_id := some f, title := jsTrim title,
            content := if jsTrim body = "" then none else some (jsTrim body),
            color := color, owner_id := some me, user_id := some me }
        { s with
          notes := s.notes ++ [newNote]
          noteCollaborators :=
            if (s.folderCollaborators.filter (fun c => c.folder_id == f)).isEmpty then
              s.noteCollaborators
            else
              insertNoteCollaborators s.noteCollaborators
                ((s.folderCollaborators.filter (fun c => c.folder_id == f)).map
                  (fun c => NoteCollaborator.mk newId c.user_id c.permission me)) }) := by
  simp only [addNote, if_neg hf, if_neg htitle]
  split <;> rfl

/-- C4: creating a note inside a folder that has collaborators materializes,
before the call returns, exactly one NoteCollaborator row on the new note per
current folder collaborator, carrying that collaborator's permission — and
the new note row itself is inserted. -/
theorem addNote_materializes_folder_collaborators
    (s : Store) (me f : String) (title body : String) (color : Option String) (newId : String)
    (htitle : ¬jsTrim title = "") (hf : f ≠ "")
    (hcollabs : s.folderCollaborators.filter (fun c => c.folder_id == f) ≠ [])
    (hfresh : ∀ c ∈ s.noteCollaborators, c.note_id ≠ newId)
    (husers : ((s.folderCollaborators.filter (fun c => c.folder_id == f)).map
        FolderCollaborator.user_id).Nodup) :
    (addNote s me (some f) title body color newId).2.noteCollaborators.filter
        (fun c => c.note_id == newId) =
      (s.folderCollaborators.filter (fun c => c.folder_id == f)).map
        (fun c => NoteCollaborator.mk newId c.user_id c.permission me) ∧
    (addNote s me (some f) title body color newId).2.notes =
      s.notes ++ [{ id := newId, folder_id := some f, title := jsTrim title,
                    content := if jsTrim body = "" then none else some (jsTrim body),
                    color := color, owner_id := some me, user_id := some me }] := by
  rw [addNote_happy s me f title body color newId htitle hf]
  refine ⟨?_, rfl⟩
  have hne : ¬(s.folderCollaborators.filter (fun c => c.folder_id == f)).isEmpty = true := by
    rw [List.isEmpty_iff]
    exact hcollabs
  simp only [hne, if_false, Bool.false_eq_true]
  have hbatch : batchOk s.noteCollaborators
      ((s.folderCollaborators.filter (fun c => c.folder_id == f)).map
        (fun c => NoteCollaborator.mk newId c.user_id c.permission me)) = true := by
    apply batchOk_of_no_conflict
    · intro r hr
      obtain ⟨c, hc, rfl⟩ := List.mem_map.mp hr
      rw [conflictsWith, List.any_eq_false]
      intro t ht
      simp only [collabClash, Bool.and_eq_true, beq_iff_eq, not_and]
      intro h1 _
      exact absurd h1 (hfresh t ht)
    · rw [List.pairwise_map]
      have hp : (s.folderCollaborators.filter (fun c => c.folder_id == f)).Pairwise
          (fun a b => a.user_id ≠ b.user_id) := by
        have h := husers
        rw [List.Nodup, List.pairwise_map] at h
        exact h
      exact hp.imp (fun h => by simp [collabClash, h])
  rw [insertNoteCollaborators, if_pos hbatch, List.filter_append]
  have hold : s.noteCollaborators.filter (fun c => c.note_id == newId) = [] := by
    rw [List.filter_eq_nil_iff]
    intro c hc
    simp only [beq_iff_eq]
    exact hfresh c hc
  rw [hold, List.nil_append]
  rw [List.filter_eq_self]
  intro r hr
  obtain ⟨c, _, rfl⟩ := List.mem_map.mp hr
  simp

/-- Concrete store for C4: folder `f1` already shared with `bob` at `view` and
`dana` at `edit`. -/
def cs4 : Store :=
  { folders := [⟨"f1", "alice", "Work"⟩]
    notes := [⟨"n1", some "f1", "Plan", some "v1", none, some "alice", some "alice"⟩]
    folderCollaborators :=
      [ ⟨"f1", "bob", Perm.view, "alice"⟩
      , ⟨"f1", "dana", Perm.edit, "alice"⟩ ]
    noteCollaborators :=
      [ ⟨"n1", "bob", Perm.view, "alice"⟩
      , ⟨"n1", "dana", Perm.edit, "alice"⟩ ] }

/-- C4 at a concrete input: a folder with two collaborators (`view`, `edit`)
yields exactly two NoteCollaborator rows on the new note, permissions
matching. -/
theorem addNote_materializes_folder_collaborators_witness :
    (¬jsTrim "Draft2" = "" ∧ ("f1" : String) ≠ "" ∧
      cs4.folderCollaborators.filter (fun c => c.folder_id == "f1") ≠ [] ∧
      ((cs4.folderCollaborators.filter (fun c => c.folder_id == "f1")).map
        FolderCollaborator.user_id).Nodup) ∧
    ((addNote cs4 "alice" (some "f1") "Draft2" "" none "n2").2.noteCollaborators.filter
        (fun c => c.note_id == "n2") =
      [ NoteCollaborator.mk "n2" "bob" Perm.view "alice"
      , NoteCollaborator.mk "n2" "dana" Perm.edit "alice" ] ∧
    (addNote cs4 "alice" (some "f1") "Draft2" "" none "n2").2.notes =
      cs4.notes ++ [{ id := "n2", folder_id := some "f1", title := jsTrim "Draft2",
                      content := if jsTrim "" = "" then none else some (jsTrim ""),
                      color := none, owner_id := some "alice", user_id := some "alice" }]) :=
  ⟨⟨by decide, by decide, by decide, by decide⟩, by
    have h := addNote_materializes_folder_collaborators cs4 "alice" "f1" "Draft2" "" none "n2"
      (by decide) (by decide) (by decide)
      (by intro c hc; fin_cases hc <;> decide) (by decide)
    exact h⟩

/-- `updateNote()` with its React state made explicit: `editingNote` is the
note open in the editor.  The source bails out when no note is being edited
or the title is blank, otherwise updates `{title, content, color}` keyed by
the note id. -/
def updateNote (s : Store) (editingNote : Option Note) (noteTitle noteBody : String)
    (noteColor : Option String) : Store :=
  match editingNote with
  | none => s
  | some en =>
    if jsTrim noteTitle = "" then s
    else { s with
      notes := s.notes.map (fun n =>
        if n.id == en.id then
          { n with
            title := jsTrim noteTitle
            content := if jsTrim noteBody = "" then none else some (jsTrim noteBody)
            color := noteColor }
        else n) }

/-- C9: a blank (empty or whitespace-only) title makes both `updateNote` and
`addNote` return before any write: the store is unchanged. -/
theorem blank_title_rejected_before_write
    (s : Store) (en : Note) (me : String) (fid : Option String)
    (noteTitle noteBody : String) (noteColor : Option String) (newId : String)
    (h : jsTrim noteTitle = "") :
    updateNote s (some en) noteTitle noteBody noteColor = s ∧
    addNote s me fid noteTitle noteBody noteColor newId = (AddNoteResult.emptyTitle, s) := by
  constructor
  · simp [updateNote, h]
  · simp [addNote, h]

/-- C9 at a concrete input: a whitespace-only title trims to the empty string
and neither operation writes. -/
theorem blank_title_rejected_before_write_witness :
    jsTrim "   " = "" ∧
    (updateNote cs2 (some ⟨"n1", some "f1", "Plan", some "v1", none, some "alice",
        some "alice"⟩) "   " "body" none = cs2 ∧
    addNote cs2 "alice" (some "f1") "   " "body" none "n9" =
      (AddNoteResult.emptyTitle, cs2)) :=
  ⟨by decide,
    blank_title_rejected_before_write cs2
      ⟨"n1", some "f1", "Plan", some "v1", none, some "alice", some "alice"⟩
      "alice" (some "f1") "   " "body" none "n9" (by decide)⟩

/-- The unique folder ids that have at least one `folder_collaborators` row:
the source collects them in a `Set` used only for `.has` membership tests and
a `.size > 0` check, both invariant under de-duplication, so a plain list of
the mapped ids is an equivalent embedding. -/
def sharedFolderIdList (s : Store) : List String :=
  s.folderCollaborators.map (fun c => c.folder_id)

/-- `fetchNotes` step 1: own notes (`owner_id` or `user_id` equals the session
user) excluding notes living in a shared folder. -/
def filteredOwnNotes (s : Store) (me : String) : List Note :=
  (s.notes.filter (fun n => n.owner_id == some me || n.user_id == some me)).filter
    (fun n =>
      match n.folder_id with
      | none => true
      | some f => !(sharedFolderIdList s).contains f)

/-- `fetchNotes` step 2: ids of the notes with a direct `note_collaborators`
row for the session user. -/
def collaboratorNoteIds (s : Store) (me : String) : List String :=
  (s.noteCollaborators.filter (fun c => c.user_id == me)).map (fun c => c.note_id)

/-- `fetchNotes` step 2 continued: the directly shared notes (fetched only
when some collaborator row exists). -/
def directSharedNotes (s : Store) (me : String) : List Note :=
  if (collaboratorNoteIds s me).isEmpty then []
  else s.notes.filter (fun n => (collaboratorNoteIds s me).contains n.id)

/-- `fetchNotes` step 3: all notes living in shared folders. -/
def sharedFolderNotes (s : Store) : List Note :=
  s.notes.filter (fun n =>
    match n.folder_id with
    | none => false
    | some f => (sharedFolderIdList s).contains f)

/-- `fetchNotes` step 3 continued: merge of the directly shared notes with the
shared-folder notes, skipping ids already present (the source's
`existingNoteIds` de-duplication). -/
def sharedNotesData (s : Store) (me : String) : List Note :=
  if (sharedFolderIdList s).isEmpty then directSharedNotes s me
  else if (sharedFolderNotes s).isEmpty then directSharedNotes s me
  else directSharedNotes s me ++
    (sharedFolderNotes s).filter
      (fun n => !((directSharedNotes s me).map (fun m => m.id)).contains n.id)

/-- The two React state lists `fetchNotes` ends with (`setNotes` /
`setSharedNotes`). -/
structure FetchResult where
  notes : List Note
  sharedNotes : List Note
deriving DecidableEq, Repr

/-- `fetchNotes()`: computes the own partition and the shared partition.  The
`.order('created_at', …)` clauses only permute each query's rows and are
omitted; every claim about the result is membership/count based and invariant
under permutation. -/
def fetchNotes (s : Store) (me : String) : FetchResult :=
  { notes := filteredOwnNotes s me, sharedNotes := sharedNotesData s me }

/-- JavaScript `toLowerCase`, written over the character list so the kernel
can evaluate it. -/
def jsToLower (s : String) : String :=
  String.mk (s.data.map Char.toLower)

/-- Does `hay` start with `needle`? -/
def charsStart : List Char → List Char → Bool
  | [], _ => true
  | _ :: _, [] => false
  | a :: as, b :: bs => a == b && charsStart as bs

/-- JavaScript `String.prototype.includes` over character lists. -/
def charsContain : List Char → List Char → Bool
  | [], needle => needle.isEmpty
  | hay@(_ :: t), needle => charsStart needle hay || charsContain t needle

/-- JavaScript `hay.includes(needle)`. -/
def strIncludes (hay needle : String) : Bool :=
  charsContain hay.data needle.data

/-- The `/<[^>]*>/g → ' '` replacement of `toPlainTextSearch`: a run from `<`
to the first following `>` becomes one space; a trailing `<…` with no closing
`>` is not a match and stays literal.  `acc` buffers the characters read since
the pending `<`. -/
def stripTagsGo : List Char → Option (List Char) → List Char
  | [], none => []
  | [], some acc => '<' :: acc.reverse
  | c :: cs, none =>
    if c = '<' then stripTagsGo cs (some []) else c :: stripTagsGo cs none
  | c :: cs, some acc =>
    if c = '>' then ' ' :: stripTagsGo cs none else stripTagsGo cs (some (c :: acc))

/-- The `/\s+/g → ' '` replacement: collapse whitespace runs to single
spaces.  `prev` records whether the previous kept character was a space. -/
def collapseWsGo : List Char → Bool → List Char
  | [], _ => []
  | c :: cs, prev =>
    if c.isWhitespace then
      if prev then collapseWsGo cs true else ' ' :: collapseWsGo cs true
    else c :: collapseWsGo cs false

/-- `toPlainTextSearch(html)`: strip markup, collapse whitespace, trim;
`null`/empty input gives the empty string. -/
def toPlainTextSearch : Option String → String
  | none => ""
  | some html =>
    if html = "" then ""
    else jsTrim (String.mk (collapseWsGo (stripTagsGo html.data none) false))

/-- `NotesView`'s `filteredNotes` memo: search mode scans everything;
otherwise the `'shared'` sentinel lists the loose shared notes, a folder id
lists that folder's notes from both partitions, and no selection lists the
loose own notes.  (An empty-string folder id is falsy in the source and
behaves like no selection.) -/
def filteredNotes (notes sharedNotes : List Note) (selectedFolderId : Option String)
    (notesSearchQuery : String) : List Note :=
  if jsTrim notesSearchQuery ≠ "" then
    (notes ++ sharedNotes).filter (fun note =>
      strIncludes (jsToLower note.title) (jsToLower notesSearchQuery) ||
      strIncludes (jsToLower (toPlainTextSearch note.content)) (jsToLower notesSearchQuery))
  else
    match selectedFolderId with
    | some fid =>
      if fid = "shared" then sharedNotes.filter (fun n => n.folder_id.isNone)
      else if fid = "" then notes.filter (fun n => n.folder_id.isNone)
      else (notes ++ sharedNotes).filter (fun n => n.folder_id == some fid)
    | none => notes.filter (fun n => n.folder_id.isNone)

lemma strContains_iff (l : List String) (a : String) : l.contains a = true ↔ a ∈ l := by
  simp [List.contains]

lemma directSharedNotes_subset (s : Store) (me : String) :
    ∀ x ∈ directSharedNotes s me, x ∈ s.notes := by
  intro x hx
  unfold directSharedNotes at hx
  split at hx
  · cases hx
  · exact (List.mem_filter.mp hx).1

lemma directSharedNotes_nodup (s : Store) (me : String) (h : s.notes.Nodup) :
    (directSharedNotes s me).Nodup := by
  unfold directSharedNotes
  split
  · exact List.nodup_nil
  · exact h.filter _

lemma sharedNotesData_subset (s : Store) (me : String) :
    ∀ x ∈ sharedNotesData s me, x ∈ s.notes := by
  intro x hx
  unfold sharedNotesData at hx
  split at hx
  · exact directSharedNotes_subset s me x hx
  · split at hx
    · exact directSharedNotes_subset s me x hx
    · rcases List.mem_append.mp hx with h1 | h1
      · exact directSharedNotes_subset s me x h1
      · exact (List.mem_filter.mp (List.mem_filter.mp h1).1).1

lemma sharedNotesData_nodup (s : Store) (me : String) (h : s.notes.Nodup) :
    (sharedNotesData s me).Nodup := by
  unfold sharedNotesData
  split
  · exact directSharedNotes_nodup s me h
  · split
    · exact directSharedNotes_nodup s me h
    · refine (directSharedNotes_nodup s me h).append ((h.filter _).filter _) ?_
      intro x hx1 hx2
      have hpred := (List.mem_filter.mp hx2).2
      have hxid : ((directSharedNotes s me).map (fun m => m.id)).contains x.id = true :=
        (strContains_iff _ _).mpr (List.mem_map.mpr ⟨x, hx1, rfl⟩)
      rw [hxid] at hpred
      cases hpred

/-- C5: a note living in a folder that has at least one FolderCollaborator row
is excluded from the own partition (and hence from the loose "my notes"
listing), surfaces in the shared partition, and is never in both partitions
at once. -/
theorem sharedFolder_note_not_in_own_partition
    (s : Store) (me : String) (n : Note) (f : String) (fc : FolderCollaborator)
    (hn : n ∈ s.notes) (hf : n.folder_id = some f)
    (hfc : fc ∈ s.folderCollaborators) (hfcf : fc.folder_id = f)
    (hnodup : (s.notes.map Note.id).Nodup) :
    n ∉ (fetchNotes s me).notes ∧
    n ∉ filteredNotes (fetchNotes s me).notes (fetchNotes s me).sharedNotes none "" ∧
    n ∈ (fetchNotes s me).sharedNotes ∧
    ¬(n ∈ (fetchNotes s me).notes ∧ n ∈ (fetchNotes s me).sharedNotes) := by
  have hfin : f ∈ sharedFolderIdList s :=
    List.mem_map.mpr ⟨fc, hfc, hfcf⟩
  have hfinc : (sharedFolderIdList s).contains f = true := (strContains_iff _ _).mpr hfin
  have h1 : n ∉ filteredOwnNotes s me := by
    intro hmem
    have h2 := (List.mem_filter.mp hmem).2
    rw [hf] at h2
    simp only [hfinc, Bool.not_true] at h2
    cases h2
  have h3 : n ∈ sharedFolderNotes s :=
    List.mem_filter.mpr ⟨hn, by rw [hf]; exact hfinc⟩
  have h4 : n ∈ sharedNotesData s me := by
    unfold sharedNotesData
    have hne1 : ¬(sharedFolderIdList s).isEmpty = true := by
      rw [List.isEmpty_iff]
      intro hemp
      rw [hemp] at hfin
      cases hfin
    have hne2 : ¬(sharedFolderNotes s).isEmpty = true := by
      rw [List.isEmpty_iff]
      intro hemp
      rw [hemp] at h3
      cases h3
    rw [if_neg hne1, if_neg hne2]
    by_cases hid : ((directSharedNotes s me).map (fun m => m.id)).contains n.id = true
    · obtain ⟨m, hm, hmid⟩ := List.mem_map.mp ((strContains_iff _ _).mp hid)
      have hmn : m = n :=
        List.inj_on_of_nodup_map hnodup (directSharedNotes_subset s me m hm) hn hmid
      exact List.mem_append_left _ (hmn ▸ hm)
    · refine List.mem_append_right _ (List.mem_filter.mpr ⟨h3, ?_⟩)
      simp only [Bool.not_eq_true] at hid
      rw [hid]
      rfl
  refine ⟨h1, ?_, h4, fun hb => h1 hb.1⟩
  intro hmem
  have hq : jsTrim "" = "" := rfl
  simp only [filteredNotes, hq, ne_eq, not_true_eq_false, if_false] at hmem
  exact h1 (List.mem_filter.mp hmem).1

/-- Concrete store for the listing claims: `alice`'s folder `f1` holds note
`n1` and is shared with `bob`; there are no direct note shares. -/
def cs6 : Store :=
  { folders := [⟨"f1", "alice", "Work"⟩]
    notes := [⟨"n1", some "f1", "Plan", some "v1", none, some "alice", some "alice"⟩]
    folderCollaborators := [⟨"f1", "bob", Perm.edit, "alice"⟩]
    noteCollaborators := [] }

/-- The single note of `cs6`. -/
def note6 : Note :=
  ⟨"n1", some "f1", "Plan", some "v1", none, some "alice", some "alice"⟩

/-- C5 at a concrete input: the shared-folder note is out of `alice`'s own
partition and in the shared partition. -/
theorem sharedFolder_note_not_in_own_partition_witness :
    (note6 ∈ cs6.notes ∧ note6.folder_id = some "f1" ∧
      FolderCollaborator.mk "f1" "bob" Perm.edit "alice" ∈ cs6.folderCollaborators ∧
      (cs6.notes.map Note.id).Nodup) ∧
    (note6 ∉ (fetchNotes cs6 "alice").notes ∧
     note6 ∉ filteredNotes (fetchNotes cs6 "alice").notes
        (fetchNotes cs6 "alice").sharedNotes none "" ∧
     note6 ∈ (fetchNotes cs6 "alice").sharedNotes ∧
     ¬(note6 ∈ (fetchNotes cs6 "alice").notes ∧
        note6 ∈ (fetchNotes cs6 "alice").sharedNotes)) :=
  ⟨⟨by decide, by decide, by decide, by decide⟩,
    sharedFolder_note_not_in_own_partition cs6 "alice" note6 "f1"
      (FolderCollaborator.mk "f1" "bob" Perm.edit "alice") (by decide) (by decide)
      (by decide) (by decide) (by decide)⟩

/-- C6: the claim as stated is false on the code: for `bob`, note `n1` is in
the de-duplicated union (b) ∪ (c) — it is `(fetchNotes).sharedNotes` — yet the
`'shared'` folder filter shows it zero times, because that branch keeps only
notes with no `folder_id`. -/
theorem sharedFilter_counterexample :
    note6 ∈ (fetchNotes cs6 "bob").sharedNotes ∧
    (filteredNotes (fetchNotes cs6 "bob").notes (fetchNotes cs6 "bob").sharedNotes
      (some "shared") "").count note6 = 0 := by
  decide

/-- C6 (amended): under the `'shared'` filter the listing is the de-duplicated
union (b) ∪ (c) restricted to notes with no folder id: a union note without a
folder id appears exactly once, and any note with a folder id — in particular
every note of (c) — appears zero times. -/
theorem sharedFilter_lists_loose_union (s : Store) (me : String) (n : Note)
    (hn : n ∈ s.notes) (hnodup : (s.notes.map Note.id).Nodup) :
    (filteredNotes (fetchNotes s me).notes (fetchNotes s me).sharedNotes
        (some "shared") "").count n =
      if n ∈ (fetchNotes s me).sharedNotes ∧ n.folder_id = none then 1 else 0 := by
  have hq : jsTrim "" = "" := rfl
  have hred : filteredNotes (fetchNotes s me).notes (fetchNotes s me).sharedNotes
      (some "shared") "" = (sharedNotesData s me).filter (fun n => n.folder_id.isNone) := by
    simp [filteredNotes, hq, fetchNotes]
  rw [hred]
  have hnd : s.notes.Nodup := hnodup.of_map Note.id
  have hrnd : ((sharedNotesData s me).filter (fun n => n.folder_id.isNone)).Nodup :=
    (sharedNotesData_nodup s me hnd).filter _
  by_cases hmem : n ∈ (fetchNotes s me).sharedNotes ∧ n.folder_id = none
  · rw [if_pos hmem]
    refine List.count_eq_one_of_mem hrnd (List.mem_filter.mpr ⟨hmem.1, ?_⟩)
    rw [hmem.2]
    rfl
  · rw [if_neg hmem]
    refine List.count_eq_zero.mpr ?_
    intro hin
    obtain ⟨h1, h2⟩ := List.mem_filter.mp hin
    exact hmem ⟨h1, Option.isNone_iff_eq_none.mp h2⟩

/-- C6 (amended) at a concrete input: `n1` carries a folder id, so `bob`'s
`'shared'` listing shows it zero times even though it is in the union. -/
theorem sharedFilter_lists_loose_union_witness :
    (note6 ∈ cs6.notes ∧ (cs6.notes.map Note.id).Nodup) ∧
    (filteredNotes (fetchNotes cs6 "bob").notes (fetchNotes cs6 "bob").sharedNotes
        (some "shared") "").count note6 =
      (if note6 ∈ (fetchNotes cs6 "bob").sharedNotes ∧ note6.folder_id = none
       then 1 else 0) :=
  ⟨⟨by decide, by decide⟩,
    sharedFilter_lists_loose_union cs6 "bob" note6 (by decide) (by decide)⟩

/-- The `{id, title}` projection of the note being edited, as stored in the
draft record. -/
structure EditingRef where
  id : String
  title : String
deriving DecidableEq, Repr

/-- The JSON draft record kept under the `note-draft` localStorage key. -/
structure DraftRecord where
  noteModalOpen : Bool
  noteTitle : String
  noteBody : String
  noteColor : Option String
  editingNote : Option EditingRef
  timestamp : Nat
deriving DecidableEq, Repr

/-- The two localStorage keys the draft machinery touches (`none` = key
absent). -/
structure LocalStore where
  noteDraft : Option DraftRecord
  wasInNote : Option String
deriving DecidableEq, Repr

/-- The React state the two draft effects read and write: the editor fields,
the modal flag and the `hasRestoredDraft` ref. -/
structure EditorState where
  noteTitle : String
  noteBody : String
  noteColor : Option String
  noteModalOpen : Bool
  hasRestoredDraft : Bool
deriving DecidableEq, Repr

/-- The draft auto-save effect (deps: modal flag and editor fields): skips
when not on web or while `hasRestoredDraft.current` is still false; with the
modal open it writes both keys with the current fields and `timestamp: now`;
with the modal closed it removes both keys entirely. -/
def autoSaveDraftEffect (isWeb : Bool) (st : EditorState) (editingNote : Option EditingRef)
    (now : Nat) (ls : LocalStore) : LocalStore :=
  if !isWeb then ls
  else if !st.hasRestoredDraft then ls
  else if st.noteModalOpen then
    { noteDraft := some
        { noteModalOpen := st.noteModalOpen, noteTitle := st.noteTitle
          noteBody := st.noteBody, noteColor := st.noteColor
          editingNote := editingNote, timestamp := now }
      wasInNote := some "true" }
  else { noteDraft := none, wasInNote := none }

/-- The restore effect, run once at mount.  It only reads local storage
(the source contains no `removeItem`/`setItem` here): with both keys present
(and `was-in-note` truthy) and the draft recent — truthy timestamp, younger
than 24 h — it restores the fields, schedules the modal open and sets
`hasRestoredDraft.current`; otherwise it leaves the state untouched, and in
particular `hasRestoredDraft.current` is set only on an actual restore. -/
def restoreDraftEffect (isWeb : Bool) (now : Nat) (ls : LocalStore)
    (st : EditorState) : EditorState :=
  if !isWeb then st
  else if st.hasRestoredDraft then st
  else
    match ls.wasInNote, ls.noteDraft with
    | some w, some draft =>
      if w ≠ "" then
        if draft.timestamp ≠ 0 ∧ now - draft.timestamp < 86400000 then
          { noteTitle := draft.noteTitle, noteBody := draft.noteBody
            noteColor := draft.noteColor, noteModalOpen := true, hasRestoredDraft := true }
        else st
      else st
    | _, _ => st

/-- C10: a stored draft 24 hours old or older is not restored — the editor
state is untouched and stays closed — and neither key is deleted: the restore
effect writes nothing to local storage, and the auto-save effect still skips
(the restored flag is still false), leaving both keys exactly as they were. -/
theorem stale_draft_not_restored_not_deleted
    (now now2 : Nat) (ls : LocalStore) (st : EditorState) (draft : DraftRecord)
    (editingNote : Option EditingRef)
    (h0 : st.hasRestoredDraft = false)
    (hw : ls.wasInNote = some "true") (hd : ls.noteDraft = some draft)
    (hold : draft.timestamp + 86400000 ≤ now) :
    restoreDraftEffect true now ls st = st ∧
    autoSaveDraftEffect true (restoreDraftEffect true now ls st) editingNote now2 ls = ls := by
  have hrec : ¬(draft.timestamp ≠ 0 ∧ now - draft.timestamp < 86400000) := by
    rintro ⟨-, hlt⟩
    omega
  have hrestore : restoreDraftEffect true now ls st = st := by
    rw [restoreDraftEffect]
    rw [hw, hd]
    simp [h0, hrec]
  refine ⟨hrestore, ?_⟩
  rw [hrestore]
  rw [autoSaveDraftEffect]
  simp [h0]

/-- C10 at a concrete input: a draft written at `t = 0` seen again at
`t = 24 h` is discarded but both keys survive. -/
theorem stale_draft_not_restored_not_deleted_witness :
    (({ noteTitle := "", noteBody := "", noteColor := none, noteModalOpen := false,
        hasRestoredDraft := false } : EditorState).hasRestoredDraft = false ∧
      (0 : Nat) + 86400000 ≤ 86400000) ∧
    (restoreDraftEffect true 86400000
        ⟨some ⟨true, "Plan", "body", none, none, 0⟩, some "true"⟩
        { noteTitle := "", noteBody := "", noteColor := none, noteModalOpen := false,
          hasRestoredDraft := false } =
      { noteTitle := "", noteBody := "", noteColor := none, noteModalOpen := false,
        hasRestoredDraft := false } ∧
    autoSaveDraftEffect true
        (restoreDraftEffect true 86400000
          ⟨some ⟨true, "Plan", "body", none, none, 0⟩, some "true"⟩
          { noteTitle := "", noteBody := "", noteColor := none, noteModalOpen := false,
            hasRestoredDraft := false }) none 86400500
        ⟨some ⟨true, "Plan", "body", none, none, 0⟩, some "true"⟩ =
      ⟨some ⟨true, "Plan", "body", none, none, 0⟩, some "true"⟩) :=
  ⟨⟨by decide, by decide⟩,
    stale_draft_not_restored_not_deleted 86400000 86400500
      ⟨some ⟨true, "Plan", "body", none, none, 0⟩, some "true"⟩
      { noteTitle := "", noteBody := "", noteColor := none, noteModalOpen := false,
        hasRestoredDraft := false }
      ⟨true, "Plan", "body", none, none, 0⟩ none rfl rfl rfl (by decide)⟩

/-- The editor state at a fresh process start. -/
def freshEditor : EditorState :=
  { noteTitle := "", noteBody := "", noteColor := none
    noteModalOpen := false, hasRestoredDraft := false }

/-- Local storage with neither draft key present. -/
def emptyLocalStore : LocalStore := { noteDraft := none, wasInNote := none }

/-- C7, failing input: in a session that starts with no stored draft, the
restore effect never sets `hasRestoredDraft.current` (it is set only when a
recent draft was actually restored), so when the user then opens the editor
the auto-save effect still skips: no draft record is written on opening —
contradicting both the claim and the source's own "waiting for restore"
comments, which only intend to delay auto-save until restore has run. -/
theorem draft_not_written_on_open
    : (restoreDraftEffect true 1000 emptyLocalStore freshEditor).hasRestoredDraft = false ∧
    autoSaveDraftEffect true
        { restoreDraftEffect true 1000 emptyLocalStore freshEditor with
          noteModalOpen := true, noteTitle := "My note" } none 2000 emptyLocalStore =
      emptyLocalStore ∧
    (autoSaveDraftEffect true
        { restoreDraftEffect true 1000 emptyLocalStore freshEditor with
          noteModalOpen := true, noteTitle := "My note" } none 2000
        emptyLocalStore).noteDraft = none := by
  decide

/-- One change of the editor fields while editing an existing note, at
millisecond `time`. -/
structure FieldEdit where
  time : Nat
  title : String
  body : String
  color : Option String
deriving DecidableEq, Repr

/-- One `update({title, content, color}).eq('id', noteId)` issued by the
autosave timer. -/
structure NoteWrite where
  time : Nat
  noteId : String
  title : String
  content : Option String
  color : Option String
deriving DecidableEq, Repr

/-- The write the timer armed by edit `e` issues when it fires: 2000 ms after
the edit, carrying that effect closure's field values (`title.trim()`,
`content` with blank collapsed to null, `color`). -/
def writeOf (noteId : String) (e : FieldEdit) : NoteWrite :=
  { time := e.time + 2000, noteId := noteId
    title := jsTrim e.title
    content := if jsTrim e.body = "" then none else some (jsTrim e.body)
    color := e.color }

/-- The effect arms a timer only when a note is being edited and the title is
non-blank (the `editingNote` guard is implicit here: the edit stream models a
session with `editingNote` fixed and non-null). -/
def qualifies (e : FieldEdit) : Bool := !(jsTrim e.title == "")

/-- Timer protocol of the autosave effect, over a time-ordered edit stream
with the editor kept open afterwards: every dependency change first runs the
previous effect's cleanup (`clearTimeout`), cancelling an armed timer, then
arms a fresh 2000 ms timer when the edit qualifies.  An armed timer therefore
fires — issuing the write captured by its own effect closure — exactly when
the next edit arrives no earlier than 2000 ms later (or never arrives). -/
def debounceWrites (noteId : String) : List FieldEdit → List NoteWrite
  | [] => []
  | [e] => if qualifies e then [writeOf noteId e] else []
  | e :: e2 :: rest =>
    (if qualifies e && decide (e.time + 2000 ≤ e2.time) then [writeOf noteId e] else []) ++
      debounceWrites noteId (e2 :: rest)

/-- C8: a burst of qualifying edits, each arriving strictly within 2000 ms of
the previous one, produces exactly one update write: the one armed by the
last edit, firing 2000 ms after it and carrying the field values as of that
last edit. -/
theorem debounce_coalesces (noteId : String) (edits : List FieldEdit)
    (hne : edits ≠ [])
    (hqual : ∀ e ∈ edits, qualifies e = true)
    (hburst : edits.Chain' (fun a b => b.time < a.time + 2000)) :
    debounceWrites noteId edits = [writeOf noteId (edits.getLast hne)] ∧
    ∀ w ∈ debounceWrites noteId edits,
      w.time = (edits.getLast hne).time + 2000 ∧
      w.title = jsTrim (edits.getLast hne).title ∧
      w.content = (if jsTrim (edits.getLast hne).body = "" then none
        else some (jsTrim (edits.getLast hne).body)) ∧
      w.color = (edits.getLast hne).color := by
  have hmain : debounceWrites noteId edits = [writeOf noteId (edits.getLast hne)] := by
    induction edits with
    | nil => exact absurd rfl hne
    | cons e rest ih =>
      cases rest with
      | nil =>
        simp [debounceWrites, hqual e (by simp)]
      | cons e2 rest2 =>
        have hchain := List.chain'_cons.mp hburst
        have hcond : (qualifies e && decide (e.time + 2000 ≤ e2.time)) = false := by
          have : ¬(e.time + 2000 ≤ e2.time) := by
            have := hchain.1
            omega
          simp [this]
        have hrec := ih (by simp)
          (fun x hx => hqual x (List.mem_cons_of_mem e hx)) hchain.2
        show (if qualifies e && decide (e.time + 2000 ≤ e2.time) then [writeOf noteId e]
            else []) ++ debounceWrites noteId (e2 :: rest2) = _
        rw [hcond, hrec]
        rfl
  refine ⟨hmain, ?_⟩
  intro w hw
  rw [hmain] at hw
  rcases List.mem_singleton.mp hw with rfl
  exact ⟨rfl, rfl, rfl, rfl⟩

/-- The burst of the claim: edits at `t = 0 s, 1 s, 1.9 s`. -/
def burst : List FieldEdit :=
  [ ⟨0, "Plan v1", "alpha", none⟩
  , ⟨1000, "Plan v2", "beta", none⟩
  , ⟨1900, "Plan v3", "gamma", some "blue"⟩ ]

/-- C8 at the claim's concrete input: one write at `t = 3.9 s` with the
values of the `t = 1.9 s` edit, not those of the `t = 0 s` edit. -/
theorem debounce_coalesces_witness :
    (burst ≠ [] ∧ (∀ e ∈ burst, qualifies e = true) ∧
      burst.Chain' (fun a b => b.time < a.time + 2000)) ∧
    (debounceWrites "n1" burst = [writeOf "n1" (burst.getLast (by decide))] ∧
    ∀ w ∈ debounceWrites "n1" burst,
      w.time = (burst.getLast (by decide)).time + 2000 ∧
      w.title = jsTrim (burst.getLast (by decide)).title ∧
      w.content = (if jsTrim (burst.getLast (by decide)).body = "" then none
        else some (jsTrim (burst.getLast (by decide)).body)) ∧
      w.color = (burst.getLast (by decide)).color) :=
  ⟨⟨by decide, by decide,
      by norm_num [burst, List.chain'_cons, List.chain'_singleton]⟩,
    debounce_coalesces "n1" burst (by decide) (by decide)
      (by norm_num [burst, List.chain'_cons, List.chain'_singleton])⟩

end MoofToDo
